import Mathlib

/-!
Verification development for the pysynth repository (a real-time polyphonic
FM/AM software synthesizer).  Each section embeds a part of the Python source
as Lean definitions and proves or refutes the frozen claims about it.

Conventions of the embedding:
* Python floats are modelled by elements of a `LinearOrderedField`
  (instantiated at `ℚ` for executable witnesses and at `ℝ` where the code's
  transcendental functions `exp`, `log`, `cos` are involved).
* Oscillator objects are identified by their index `Fin 4` in the
  four-oscillator template list; an oscillator's `to_oscillators` attribute
  becomes a `List (Fin 4)` of destination indices.
* Python string keys that select among a fixed set of behaviours
  (algorithm names, filter types) are modelled by closed inductive types.
* Python exceptions are modelled by `Except PyError`.
-/

namespace PySynth

/-- Python runtime errors relevant to the embedded code. -/
inductive PyError
  | zeroDivision
  deriving DecidableEq, Repr

/-!
## FM algorithms (src/pysynth/output.py, class `Algorithms`)

`Algorithms.__init__` asserts that exactly 4 oscillators are present, so the
destination state is a quadruple of destination lists, one per oscillator.
`to_oscillators` holds references to oscillators of the same list; references
are modelled by indices.
-/

/-- The `to_oscillators` destinations of the four template oscillators:
field `oN` is oscillator N's `to_oscillators` list (destination indices). -/
structure OscDests where
  o0 : List (Fin 4)
  o1 : List (Fin 4)
  o2 : List (Fin 4)
  o3 : List (Fin 4)
  deriving DecidableEq, Repr

namespace Algorithms

/-- `Algorithms.stack`: for each index `n < 3`, set
`to_oscillators = [oscillators[n+1]]`.  The last oscillator (index 3) is not
touched, so its previous destinations are kept. -/
def stack (c : OscDests) : OscDests :=
  { o0 := [1], o1 := [2], o2 := [3], o3 := c.o3 }

/-- `Algorithms.parallel`: every oscillator's `to_oscillators` is cleared. -/
def parallel (_c : OscDests) : OscDests :=
  { o0 := [], o1 := [], o2 := [], o3 := [] }

/-- `Algorithms.square`: every `to_oscillators` is cleared, then even indices
`n` get `[oscillators[n+1]]`. -/
def square (_c : OscDests) : OscDests :=
  { o0 := [1], o1 := [], o2 := [3], o3 := [] }

/-- `Algorithms.three_to_one`: every `to_oscillators` is cleared, then each
index `n < 3` gets `[oscillators[-1]]`, i.e. the last oscillator. -/
def three_to_one (_c : OscDests) : OscDests :=
  { o0 := [3], o1 := [3], o2 := [3], o3 := [] }

end Algorithms

/-- The four valid keys of `Algorithms.algorithm_switch`
(the strings `stack`, `parallel`, `square`, `3to1`). -/
inductive AlgoName
  | stack
  | parallel
  | square
  | threeToOne
  deriving DecidableEq, Repr

/-- `Algorithms.algorithm_switch`: maps each valid algorithm name to its
flagging function. -/
def algorithm_switch : AlgoName → (OscDests → OscDests)
  | .stack => Algorithms.stack
  | .parallel => Algorithms.parallel
  | .square => Algorithms.square
  | .threeToOne => Algorithms.three_to_one

/-- Number of terminal carriers: oscillators whose `to_oscillators` is empty
(these are the ones `Routing.get_final_output` returns as carriers). -/
def carrierCount (c : OscDests) : ℕ :=
  ([c.o0, c.o1, c.o2, c.o3].countP fun l => l.isEmpty)

/-!
## Voice routing state (src/pysynth/output.py, `Output` / `VoiceChannel`)

`VoiceChannel.__init__` deep-copies `output.oscillators`; hence a voice's
oscillators (and their `to_oscillators`, which after `deepcopy` point at the
voice's own copies) are value-separated from the template.
`VoiceChannel.do_routing` rebuilds the voice's FM pipeline
(`filtered_output`) from the voice's own oscillators: the `routedDests`
field records the destination topology its current pipeline was resolved
from.  `Output.choose_algorithm` applies the flagging function to the
*template* oscillators and then calls `Output.do_routing`, which calls
`voice.do_routing()` on every active voice.
-/

/-- The routing-relevant state of one `VoiceChannel`: the `to_oscillators`
of its own deep-copied oscillators, and the topology its current
`filtered_output` pipeline was resolved from. -/
structure VoiceRouting where
  dests : OscDests
  routedDests : OscDests
  deriving DecidableEq, Repr

/-- The routing-relevant state of `Output`: the template oscillators'
destinations and the active voices. -/
structure SynthState where
  template : OscDests
  voices : List VoiceRouting
  deriving DecidableEq, Repr

/-- `Output.do_routing`: calls `voice.do_routing()` on every active voice;
each voice re-resolves its pipeline from its own oscillators' destinations. -/
def Output.do_routing (s : SynthState) : SynthState :=
  { s with voices := s.voices.map fun v => { v with routedDests := v.dests } }

/-- `Output.choose_algorithm` for a valid algorithm name: apply the flagging
function to the template oscillators, then `do_routing`. -/
def Output.choose_algorithm (algo : AlgoName) (s : SynthState) : SynthState :=
  Output.do_routing { s with template := algorithm_switch algo s.template }

/-- `VoiceChannel.__init__`: the new voice deep-copies the current template
and immediately resolves its routing from that copy. -/
def VoiceChannel.new (s : SynthState) : VoiceRouting :=
  { dests := s.template, routedDests := s.template }

/-!
## Voice lifecycle (src/pysynth/output.py, `Output.add_new_voice`,
`Output.release_notes`, `VoiceChannel.release_notes`)
-/

/-- A `VoiceChannel` as seen by the voice-lifecycle code: a distinguishing
object identity `vid`, the trigger `frequency`, and the envelope states of
its oscillators (`Envelope.state`; `4` is RELEASE). -/
structure Voice where
  vid : ℕ
  frequency : ℚ
  oscStates : List ℕ
  deriving DecidableEq, Repr

/-- `VoiceChannel.release_notes`: set every oscillator's envelope state
to `4` (RELEASE). -/
def VoiceChannel.release_notes (v : Voice) : Voice :=
  { v with oscStates := v.oscStates.map fun _ => 4 }

/-- `Output.max_voices` (set to 6 in `Output.__init__`). -/
def Output.max_voices : ℕ := 6

/-- `Output.add_new_voice`: if the list holds `max_voices` or more voices,
`pop()` the last element, then append the new voice. -/
def Output.add_new_voice (voices : List Voice) (v : Voice) : List Voice :=
  (if Output.max_voices ≤ voices.length then voices.dropLast else voices) ++ [v]

/-- The body of `Output.release_notes`, with CPython `for`-loop semantics:
the loop keeps an internal index `k`; at each step, if `k` is in range it
reads `voices[k]`, releases and removes it when the frequency matches
(`list.remove` deletes the first occurrence of the object, and the in-place
mutation by `release_notes` is visible through the list reference, hence the
`set` before `erase`), and then advances `k` — also after a removal, which
is what skips the element that slid into position `k`.  The `fuel` argument
is only a structural-recursion bound: the loop advances `k` on every
iteration and stops once `k` reaches the (never growing) list length, so
`voices.length` iterations always suffice. -/
def Output.release_notes_loop (frequency : ℚ) : ℕ → List Voice → ℕ → List Voice
  | 0, voices, _ => voices
  | fuel + 1, voices, k =>
    if h : k < voices.length then
      let v := voices.get ⟨k, h⟩
      if v.frequency = frequency then
        Output.release_notes_loop frequency fuel
          ((voices.set k (VoiceChannel.release_notes v)).erase
            (VoiceChannel.release_notes v)) (k + 1)
      else
        Output.release_notes_loop frequency fuel voices (k + 1)
    else voices

/-- `Output.release_notes(frequency)`: iterate over the active voices,
releasing and removing every voice the loop actually visits whose trigger
frequency matches.  Returns the remaining active-voice list. -/
def Output.release_notes (frequency : ℚ) (voices : List Voice) : List Voice :=
  Output.release_notes_loop frequency voices.length voices 0

/-!
## SumFilter (src/pysynth/filters.py)

A source is modelled by its infinite lazy block sequence `ℕ → List α`
(`blocks()` yields block `n` at pull `n`).
-/

section Filters

variable {α : Type} [LinearOrderedField α]

/-- Length of the sequence produced by Python `zip(*bss)`:
the minimum of the lengths (`0` when `bss` is empty). -/
def minLen (bss : List (List α)) : ℕ :=
  match bss with
  | [] => 0
  | b :: rest => rest.foldl (fun m l => min m l.length) b.length

/-- Python `zip(*bss)` on a list of lists: the list of columns, truncated at
the shortest row; column `i` is `[b[i] for b in bss]`.  (The `getD` default
is never read: `i` ranges below every row's length.) -/
def pyZip (bss : List (List α)) : List (List α) :=
  match bss with
  | [] => []
  | b :: rest =>
    (List.range (minLen (b :: rest))).map fun i =>
      (b :: rest).map fun l => l.getD i 0

/-- A constructed `SumFilter` object: its sources and its (possibly
normalised) `amplitude`. -/
structure SumFilterS (α : Type) where
  sources : List (ℕ → List α)
  amplitude : α

/-- `SumFilter.normalise_amplitude`: `self.amplitude /= len(self.sources)`.
Dividing by zero sources raises `ZeroDivisionError`. -/
def normalise_amplitude (amplitude : α) (n : ℕ) : Except PyError α :=
  if n = 0 then .error PyError.zeroDivision else .ok (amplitude / (n : α))

/-- `SumFilter.__init__(sources, amplitude=1.0, normalise=True)`. -/
def mkSumFilter (sources : List (ℕ → List α)) (amplitude : α)
    (normalise : Bool) : Except PyError (SumFilterS α) :=
  if normalise then
    (normalise_amplitude amplitude sources.length).map fun a =>
      { sources := sources, amplitude := a }
  else .ok { sources := sources, amplitude := amplitude }

/-- `SumFilter.blocks`: block `n` is the elementwise sum of the sources'
blocks `n` (truncated at the shortest), each sample scaled by `amplitude`. -/
def SumFilterS.blocks (f : SumFilterS α) (n : ℕ) : List α :=
  (pyZip (f.sources.map fun s => s n)).map fun col => f.amplitude * col.sum

/-!
## Output.get_output / Output.play (src/pysynth/output.py)

`get_output` builds `SumFilter(outputs)` over the voices' `filtered_output`
sequences with the default arguments (`amplitude=1.0`, `normalise=True`).
`play` then applies the final filters (tremolo only when an AM modulator is
set — `Output.__init__` leaves it `None` — and then the configured pass
filter, by default a lowpass at cutoff 18000) and hands the result to the
audio API.  Constructing a `PassFilter` object evaluates nothing: it only
stores its source, cutoff and type.
-/

/-- `Output.filter_type` values (`lowpass` / `highpass`). -/
inductive FilterType
  | lowpass
  | highpass
  deriving DecidableEq, Repr

/-- The object graph `play` hands to `AudioApi.play`: the pass filter
wrapping the (optionally tremolo-modulated) voice mix. -/
structure PassFilterS (α : Type) where
  source : SumFilterS α
  cutoff : α
  filter_type : FilterType

/-- `Output.get_output`: `SumFilter([voice.filtered_output ...])` with the
default arguments.  `outputs` is the list of the voices' `filtered_output`
block sequences. -/
def Output.get_output (outputs : List (ℕ → List α)) :
    Except PyError (SumFilterS α) :=
  mkSumFilter outputs 1 true

/-- `Output.play` with the default configuration (`am_modulator = None`,
`filter_type = "lowpass"`, `filter_cutoff = 18000`): `get_output`, then
`apply_final_filters` (tremolo is the identity without a modulator; the
pass filter just wraps).  An exception from `get_output` propagates. -/
def Output.play (outputs : List (ℕ → List α)) :
    Except PyError (PassFilterS α) :=
  (Output.get_output outputs).map fun out =>
    { source := out, cutoff := 18000, filter_type := FilterType.lowpass }

/-!
## FreqModulationFilter (src/pysynth/filters.py)

The filter holds `source_blocks = source.blocks(modulate=True)` (raw phase)
and `mod_blocks = modulator.blocks()`.  Its source object also exposes the
scalar `amplitude` and the per-sample amplitude list `amps` that the source
wrote while producing its current phase block (for an `Envelope` source this
is the time-varying envelope amplitude, initialised to all zeros).
The cosine is passed as an explicit function argument `cosF`, instantiated
with `Real.cos` in the theorems, keeping the definition evaluable.
-/

/-- The per-block view of the `source` feeding a `FreqModulationFilter`:
its scalar `amplitude` attribute, its current `amps` list, and its current
raw phase block (one pull of `source.blocks(modulate=True)`). -/
structure FMSource (α : Type) where
  amplitude : α
  amps : List α
  phaseBlock : List α

/-- `modulation = [s + m for (s, m) in zip(next(source_blocks), next(mod_blocks))]`. -/
def FreqModulationFilter.modulation (srcPhase modBlock : List α) : List α :=
  List.zipWith (· + ·) srcPhase modBlock

/-- One yield of `FreqModulationFilter.blocks(modulate)`: the raw phase sum
when `modulate` is requested, otherwise
`[a * b for (a, b) in zip(source.amps, cos(modulation))]`. -/
def FreqModulationFilter.blocks (cosF : α → α) (src : FMSource α)
    (modBlock : List α) (modulate : Bool) : List α :=
  if modulate then FreqModulationFilter.modulation src.phaseBlock modBlock
  else
    List.zipWith (· * ·) src.amps
      ((FreqModulationFilter.modulation src.phaseBlock modBlock).map cosF)

end Filters

/-!
## AudioApi.callback (src/audio_api.py)

The callback's observable effect is what it writes into `outdata` (a
`blocksize × channels` matrix) or the `sd.CallbackStop` it raises.  The
state of `self.data` at callback time is
* `none` — no sequence assigned (`self.data` is `None`; a generator object
  is always truthy, so `if not self.data` is exactly the `None` test);
* `some none` — a sequence is assigned but `next` raises `StopIteration`;
* `some (some d)` — `next(self.data)` yields the one-dimensional block `d`,
  which `prepare_data_blocks` reshapes to a column and the assignment
  broadcasts across all channels after scaling by `volume / 100`.
-/

/-- Result of one `AudioApi.callback` invocation. -/
inductive CallbackResult (α : Type)
  | write (outdata : List (List α))
  | callbackStop

/-- `AudioApi.prepare_data_blocks`: a 1-D float list becomes an
`(n, 1)` column matrix. -/
def AudioApi.prepare_data_blocks {α : Type} (data : List α) : List (List α) :=
  data.map fun x => [x]

/-- `AudioApi.callback`. -/
def AudioApi.callback {α : Type} [LinearOrderedField α]
    (blocksize channels : ℕ) (volume : α)
    (data : Option (Option (List α))) : CallbackResult α :=
  match data with
  | none =>
    .write (List.replicate blocksize (List.replicate channels 0))
  | some none => .callbackStop
  | some (some d) =>
    .write ((AudioApi.prepare_data_blocks d).map fun row =>
      List.replicate channels (volume / 100 * row.headD 0))

/-!
## Envelope (src/pysynth/filters.py)

`Envelope.blocks` precomputes, once per voice, a multiplier
`exp(get_rate(...))` and an affine base for each nonzero-duration phase and
then runs a generator loop over the states `1 = ATTACK`, `2 = DECAY`,
`3 = SUSTAIN`, `4 = RELEASE`.  The embedding keeps the precomputed
multipliers as fields of the configuration (the code's
`attack_multiplier`, `decay_multiplier`, `release_multiplier`); the claim
theorems pin them to the code's `exp`/`log` formulas over `ℝ`.  The bases
are derived from the multipliers exactly as in the code.

The generator yields, per pull, one block.  The lists recorded here are the
per-sample amplitude factors `self.amps` the code multiplies into the
source block (`yield [a * b for (a, b) in zip(self.amps, block)]`); in the
RELEASE branches that emit `[0.0] * blocksize` directly, the factor list is
all zeros.  Zero-duration ATTACK/DECAY phases fall through to the next
state inside the same loop iteration without yielding, which is what
`stepAttack`/`stepDecay` encode by delegating; the generator-level sequence
of yielded blocks is exactly `envStep` iterated on the pair
`(state, amplitude)`.
-/

section Envelope

variable {α : Type} [LinearOrderedField α] [DecidableEq α]

/-- The per-voice constants of `Envelope.blocks`: block size, `framerate`,
`max_amp = source.amplitude`,
`sustain_level = source.envelope['sustain'] * max_amp`, the four ADSR
durations/targets, and the three precomputed exponential multipliers. -/
structure EnvConfig (α : Type) where
  blocksize : ℕ
  framerate : α
  max_amp : α
  sustain_level : α
  attack : α
  decay : α
  release : α
  a_target : α
  dr_target : α
  attack_multiplier : α
  decay_multiplier : α
  release_multiplier : α

/-- `attack_base = (max_amp + a_target) * (1 - attack_multiplier)`. -/
def EnvConfig.attack_base (c : EnvConfig α) : α :=
  (c.max_amp + c.a_target) * (1 - c.attack_multiplier)

/-- `decay_base = (sustain_level - dr_target) * (1 - decay_multiplier)`. -/
def EnvConfig.decay_base (c : EnvConfig α) : α :=
  (c.sustain_level - c.dr_target) * (1 - c.decay_multiplier)

/-- `release_base = - dr_target * (1 - release_multiplier)`. -/
def EnvConfig.release_base (c : EnvConfig α) : α :=
  -c.dr_target * (1 - c.release_multiplier)

/-- The inner `for _ in range(blocksize)` loop of one exponential phase:
record the current amplitude, then update
`amplitude = base + amplitude * multiplier`.  Returns the recorded
`self.amps` list and the final amplitude. -/
def ampBlock (mult base : α) : ℕ → α → List α × α
  | 0, amp => ([], amp)
  | n + 1, amp =>
    let r := ampBlock mult base n (base + amp * mult)
    (amp :: r.1, r.2)

/-- The `state == 3` (SUSTAIN) body: `amplitude = sustain_level`, every
sample's factor is `sustain_level`, no transition. -/
def stepSustain (c : EnvConfig α) : List α × (ℕ × α) :=
  (List.replicate c.blocksize c.sustain_level, (3, c.sustain_level))

/-- The `state == 2` (DECAY) body: with `decay == 0.0` set
`amplitude = max_amp` and fall through to SUSTAIN without yielding;
otherwise run one exponential block and move to state 3 once the final
amplitude is `≤ sustain_level`. -/
def stepDecay (c : EnvConfig α) (amp : α) : List α × (ℕ × α) :=
  if c.decay = 0 then stepSustain c
  else
    let r := ampBlock c.decay_multiplier c.decay_base c.blocksize amp
    (r.1, (if r.2 ≤ c.sustain_level then 3 else 2, r.2))

/-- The `state == 1` (ATTACK) body: with `attack == 0.0` set
`amplitude = max_amp` and fall through to DECAY without yielding; otherwise
run one exponential block and move to state 2 once the final amplitude is
`≥ max_amp`. -/
def stepAttack (c : EnvConfig α) (amp : α) : List α × (ℕ × α) :=
  if c.attack = 0 then stepDecay c c.max_amp
  else
    let r := ampBlock c.attack_multiplier c.attack_base c.blocksize amp
    (r.1, (if c.max_amp ≤ r.2 then 2 else 1, r.2))

/-- The `state == 4` (RELEASE) body: with `release == 0.0` set the
amplitude to `0` and yield a silent block; with positive amplitude run one
exponential block; otherwise yield silent blocks with the amplitude
unchanged.  The state stays 4. -/
def stepRelease (c : EnvConfig α) (amp : α) : List α × (ℕ × α) :=
  if c.release = 0 then (List.replicate c.blocksize 0, (4, (0 : α)))
  else if 0 < amp then
    let r := ampBlock c.release_multiplier c.release_base c.blocksize amp
    (r.1, (4, r.2))
  else (List.replicate c.blocksize 0, (4, amp))

/-- One yield of `Envelope.blocks`: from the current `(state, amplitude)`,
the emitted per-sample amplitude factors and the next `(state, amplitude)`,
following the loop's `if self.state == 1` … `if self.state == 4` tests.
States other than 1–4 never occur (the generator would loop without
yielding). -/
def envStep (c : EnvConfig α) (s : ℕ × α) : List α × (ℕ × α) :=
  if s.1 = 1 then stepAttack c s.2
  else if s.1 = 2 then stepDecay c s.2
  else if s.1 = 3 then stepSustain c
  else if s.1 = 4 then stepRelease c s.2
  else ([], s)

/-- Reachability invariant on `(state, amplitude)` pairs of the envelope
generator (under the hypotheses of the monotonicity claim): the amplitude
stays within the band its phase's exponential curve can reach.  It holds at
the start `(1, 0)`, is preserved by `envStep`, and is preserved by the
external release trigger (`state = 4` with the amplitude left as it was). -/
def EnvInv (c : EnvConfig α) (s : ℕ × α) : Prop :=
  if s.1 = 1 then 0 ≤ s.2 ∧ s.2 ≤ c.max_amp + c.a_target
  else if s.1 = 2 then
    c.sustain_level - c.dr_target ≤ s.2 ∧ s.2 ≤ c.max_amp + c.a_target
  else if s.1 = 3 then -c.dr_target ≤ s.2 ∧ s.2 ≤ c.max_amp + c.a_target
  else if s.1 = 4 then -c.dr_target ≤ s.2
  else False

end Envelope

/-!
## Concrete instances used by witnesses and counterexamples
-/

/-- An envelope configuration with `attack = 0` and `decay = 0`,
`max_amp = 2` and sustain fraction `1/2` (so `sustain_level = 1`):
the multipliers are irrelevant (their phases are skipped). -/
def envC4counter : EnvConfig ℚ :=
  { blocksize := 4, framerate := 1, max_amp := 2, sustain_level := 1,
    attack := 0, decay := 0, release := 1, a_target := 1,
    dr_target := 1, attack_multiplier := 0, decay_multiplier := 0,
    release_multiplier := 0 }

/-- An envelope configuration with `attack = 0` and nonzero decay. -/
def envC4wit : EnvConfig ℚ :=
  { blocksize := 2, framerate := 1, max_amp := 2, sustain_level := 1,
    attack := 0, decay := 1, release := 1, a_target := 1,
    dr_target := 1, attack_multiplier := 0, decay_multiplier := 1,
    release_multiplier := 0 }

/-- A concrete two-sample source block sequence for the `SumFilter`
witness. -/
def wSrc : ℕ → List ℚ := fun _ => [1, 2]

/-!
## Theorems
-/

/-- C1: `choose_algorithm` with the valid name `stack`, on an `Output`
whose template is the parallel topology with one active voice created under
it, updates only the *template* oscillators' `to_oscillators` to the stack
topology; the active voice's deep-copied oscillators keep their
creation-time (parallel) destinations — which differ from the newly
selected topology — and `do_routing` re-resolves the voice's pipeline from
those unchanged destinations.  A live algorithm change therefore does not
affect the already-sounding voice's signal graph, contradicting the claim
(and the spec's stated intent, which the otherwise purposeless
`do_routing` call after the flagging betrays). -/
theorem choose_algorithm_stale_voices :
    Output.choose_algorithm AlgoName.stack
        { template := { o0 := [], o1 := [], o2 := [], o3 := [] },
          voices := [{ dests := { o0 := [], o1 := [], o2 := [], o3 := [] },
                       routedDests := { o0 := [], o1 := [], o2 := [], o3 := [] } }] } =
      { template := { o0 := [1], o1 := [2], o2 := [3], o3 := [] },
        voices := [{ dests := { o0 := [], o1 := [], o2 := [], o3 := [] },
                     routedDests := { o0 := [], o1 := [], o2 := [], o3 := [] } }] } ∧
    ({ o0 := [], o1 := [], o2 := [], o3 := [] } : OscDests) ≠
      { o0 := [1], o1 := [2], o2 := [3], o3 := [] } := by
  exact ⟨rfl, by decide⟩

/-- C2: `Output.release_notes(440)` on two *adjacent* voices that both
have trigger frequency 440 releases and removes only the first: removing
while iterating skips the element that slides into the freed position, so
the second matching voice stays in the active set with its envelopes still
un-released (`oscStates` unchanged, not `[4]`), contradicting the claim
that every matching voice is released and removed. -/
theorem release_notes_skips_adjacent :
    Output.release_notes 440
        [{ vid := 0, frequency := 440, oscStates := [1] },
         { vid := 1, frequency := 440, oscStates := [1] }] =
      [{ vid := 1, frequency := 440, oscStates := [1] }] ∧
    ({ vid := 1, frequency := 440, oscStates := [1] } : Voice).frequency = 440 ∧
    ({ vid := 1, frequency := 440, oscStates := [1] } : Voice).oscStates ≠ [4] := by
  decide

/-- C3 (counterexample): starting from a destination configuration whose
last oscillator has a nonempty `to_oscillators`, applying `stack` leaves 0
terminal carriers, not 1 — `stack` never touches the last oscillator, so
the claim's universal quantification over every starting configuration
fails. -/
theorem carrierCount_stack_nonempty_last :
    carrierCount (Algorithms.stack { o0 := [], o1 := [], o2 := [], o3 := [0] }) = 0 ∧
    carrierCount (Algorithms.stack { o0 := [], o1 := [], o2 := [], o3 := [0] }) ≠ 1 := by
  decide

/-- C3 (amended): on the 4-oscillator list, `parallel` always leaves
exactly 4 oscillators with empty `to_oscillators`, `square` exactly 2,
`3to1` exactly 1, and `stack` exactly 1 provided the last oscillator's
`to_oscillators` starts empty (as it does in every configuration the four
algorithm functions themselves produce, since none of them ever makes the
last oscillator's destinations nonempty). -/
theorem carrierCount_algorithms (c : OscDests) :
    carrierCount (Algorithms.parallel c) = 4 ∧
    carrierCount (Algorithms.square c) = 2 ∧
    carrierCount (Algorithms.three_to_one c) = 1 ∧
    (c.o3 = [] → carrierCount (Algorithms.stack c) = 1) := by
  refine ⟨rfl, rfl, rfl, fun h => ?_⟩
  obtain ⟨o0, o1, o2, o3⟩ := c
  cases h
  rfl

/-- Witness for `carrierCount_algorithms` at a concrete configuration with
an empty last destination list. -/
theorem carrierCount_algorithms_witness :
    carrierCount (Algorithms.stack { o0 := [0], o1 := [], o2 := [1], o3 := [] }) = 1 :=
  (carrierCount_algorithms { o0 := [0], o1 := [], o2 := [1], o3 := [] }).2.2.2 rfl

/-- C8: `AudioApi.callback` with no sequence assigned (`self.data is None`)
writes an all-zero `blocksize × channels` block into the output buffer; the
branch is total — it never raises `CallbackStop` nor any other error. -/
theorem audio_callback_silence_on_no_data (blocksize channels : ℕ) (volume : ℚ) :
    AudioApi.callback blocksize channels volume none =
      CallbackResult.write (List.replicate blocksize (List.replicate channels 0)) :=
  rfl

/-- C9: `Output.add_new_voice` preserves `len(voices) ≤ max_voices` for any
list within the bound, and at capacity it evicts exactly one voice — the
most recently added (last) element — before appending the new voice. -/
theorem add_new_voice_bounded (voices : List Voice) (v : Voice)
    (h : voices.length ≤ Output.max_voices) :
    (Output.add_new_voice voices v).length ≤ Output.max_voices ∧
    (voices.length = Output.max_voices →
      Output.add_new_voice voices v = voices.dropLast ++ [v] ∧
      (Output.add_new_voice voices v).length = Output.max_voices) := by
  unfold Output.add_new_voice Output.max_voices at *
  constructor
  · split_ifs with hc
    · simp only [List.length_append, List.length_dropLast, List.length_singleton]
      omega
    · simp only [List.length_append, List.length_singleton]
      omega
  · intro he
    rw [if_pos (le_of_eq he.symm)]
    refine ⟨rfl, ?_⟩
    simp only [List.length_append, List.length_dropLast, List.length_singleton]
    omega

/-- Witness for `add_new_voice_bounded` on a full (6-voice) list: the last
voice (vid 5) is evicted and the new voice appended. -/
theorem add_new_voice_bounded_witness :
    (Output.add_new_voice
        [{ vid := 0, frequency := 1, oscStates := [] },
         { vid := 1, frequency := 1, oscStates := [] },
         { vid := 2, frequency := 1, oscStates := [] },
         { vid := 3, frequency := 1, oscStates := [] },
         { vid := 4, frequency := 1, oscStates := [] },
         { vid := 5, frequency := 1, oscStates := [] }]
        { vid := 6, frequency := 2, oscStates := [] }).length ≤ Output.max_voices ∧
    Output.add_new_voice
        [{ vid := 0, frequency := 1, oscStates := [] },
         { vid := 1, frequency := 1, oscStates := [] },
         { vid := 2, frequency := 1, oscStates := [] },
         { vid := 3, frequency := 1, oscStates := [] },
         { vid := 4, frequency := 1, oscStates := [] },
         { vid := 5, frequency := 1, oscStates := [] }]
        { vid := 6, frequency := 2, oscStates := [] } =
      [{ vid := 0, frequency := 1, oscStates := [] },
       { vid := 1, frequency := 1, oscStates := [] },
       { vid := 2, frequency := 1, oscStates := [] },
       { vid := 3, frequency := 1, oscStates := [] },
       { vid := 4, frequency := 1, oscStates := [] },
       { vid := 5, frequency := 1, oscStates := [] }].dropLast ++
        [{ vid := 6, frequency := 2, oscStates := [] }] :=
  ⟨(add_new_voice_bounded
      [{ vid := 0, frequency := 1, oscStates := [] },
       { vid := 1, frequency := 1, oscStates := [] },
       { vid := 2, frequency := 1, oscStates := [] },
       { vid := 3, frequency := 1, oscStates := [] },
       { vid := 4, frequency := 1, oscStates := [] },
       { vid := 5, frequency := 1, oscStates := [] }]
      { vid := 6, frequency := 2, oscStates := [] } (by decide)).1,
   ((add_new_voice_bounded
      [{ vid := 0, frequency := 1, oscStates := [] },
       { vid := 1, frequency := 1, oscStates := [] },
       { vid := 2, frequency := 1, oscStates := [] },
       { vid := 3, frequency := 1, oscStates := [] },
       { vid := 4, frequency := 1, oscStates := [] },
       { vid := 5, frequency := 1, oscStates := [] }]
      { vid := 6, frequency := 2, oscStates := [] } (by decide)).2 (by decide)).1⟩

/-- C10: constructing `SumFilter` over the empty source list with
`normalise=True` divides the amplitude by `len(sources) = 0`, raising
`ZeroDivisionError` in `normalise_amplitude`; hence `Output.get_output()`
— and therefore `Output.play()` — fails with that error when the
active-voice list is empty, instead of producing a silent sequence. -/
theorem get_output_empty_zero_division :
    normalise_amplitude (1 : ℚ) 0 = .error PyError.zeroDivision ∧
    Output.get_output ([] : List (ℕ → List ℚ)) = .error PyError.zeroDivision ∧
    Output.play ([] : List (ℕ → List ℚ)) = .error PyError.zeroDivision :=
  ⟨rfl, rfl, rfl⟩

/-- Zipping a replicated constant on the left multiplies each element of an
equally long right list. -/
theorem zipWith_replicate_left {α β γ : Type} (f : α → β → γ) (a : α) :
    ∀ (n : ℕ) (l : List β), l.length = n →
      List.zipWith f (List.replicate n a) l = l.map (f a) := by
  intro n
  induction n with
  | zero =>
    intro l hl
    rw [List.length_eq_zero] at hl
    subst hl
    rfl
  | succ m ih =>
    intro l hl
    cases l with
    | nil => simp at hl
    | cons x xs =>
      simp only [List.replicate_succ, List.zipWith_cons_cons, List.map_cons]
      rw [ih xs (by simpa using hl)]

/-- C6 (counterexample): a `FreqModulationFilter` whose source has scalar
`amplitude = 1` but whose current per-sample `amps` list is `[0]` (exactly
the situation of an `Envelope` source, whose `amps` is initialised to all
zeros while its `amplitude` is `max_amp`): with `modulate=false` the
yielded sample is `amps[0] * cos(0) = 0`, not
`source.amplitude * cos(0) = 1` — the code multiplies by `source.amps`,
not by the scalar `source.amplitude` the claim states. -/
theorem fm_blocks_amps_counterexample :
    FreqModulationFilter.blocks Real.cos
        { amplitude := 1, amps := [0], phaseBlock := [0] } [0] false ≠
      (FreqModulationFilter.modulation [(0 : ℝ)] [0]).map
        (fun x =>
          (FMSource.amplitude
            { amplitude := 1, amps := [0], phaseBlock := [(0 : ℝ)] }) *
            Real.cos x) := by
  simp [FreqModulationFilter.blocks, FreqModulationFilter.modulation,
    Real.cos_zero]

/-- C6 (amended): per block, `phase_mod = source_phase + modulator`
elementwise; with `modulate=true` the filter re-emits this raw phase sum;
with `modulate=false` it yields `source.amps ⊙ cos(phase_mod)` — the
source's *per-sample* amplitude factors, not the scalar
`source.amplitude`.  When the source's `amps` happen to be constantly its
scalar `amplitude` (one value per phase sample), this coincides with the
claimed `source.amplitude * cos(phase_mod)`. -/
theorem fm_blocks_amended (cosF : ℝ → ℝ) (src : FMSource ℝ) (modBlock : List ℝ) :
    FreqModulationFilter.blocks cosF src modBlock true =
      List.zipWith (· + ·) src.phaseBlock modBlock ∧
    FreqModulationFilter.blocks cosF src modBlock false =
      List.zipWith (· * ·) src.amps
        ((List.zipWith (· + ·) src.phaseBlock modBlock).map cosF) ∧
    ∀ n : ℕ, src.amps = List.replicate n src.amplitude →
      (List.zipWith (· + ·) src.phaseBlock modBlock).length = n →
      FreqModulationFilter.blocks cosF src modBlock false =
        (List.zipWith (· + ·) src.phaseBlock modBlock).map
          (fun x => src.amplitude * cosF x) := by
  refine ⟨rfl, rfl, fun n hamps hlen => ?_⟩
  show List.zipWith (· * ·) src.amps
      ((FreqModulationFilter.modulation src.phaseBlock modBlock).map cosF) = _
  rw [hamps]
  rw [zipWith_replicate_left (· * ·) src.amplitude n
    ((FreqModulationFilter.modulation src.phaseBlock modBlock).map cosF)
    (by simpa [FreqModulationFilter.modulation] using hlen)]
  simp [FreqModulationFilter.modulation, Function.comp]

/-- Witness for `fm_blocks_amended` with `cosF := Real.cos` on a source
whose `amps` are constantly its amplitude `2`. -/
theorem fm_blocks_amended_witness :
    FreqModulationFilter.blocks Real.cos
        { amplitude := 2, amps := [2, 2], phaseBlock := [0, 0] } [0, 0] false =
      (List.zipWith (· + ·) [(0 : ℝ), 0] [0, 0]).map
        (fun x => (2 : ℝ) * Real.cos x) :=
  (fm_blocks_amended Real.cos
    { amplitude := 2, amps := [2, 2], phaseBlock := [0, 0] } [0, 0]).2.2 2 rfl rfl

/-- `pyZip` on a nonempty list of rows, unfolded. -/
theorem pyZip_cons {α : Type} [LinearOrderedField α] (b : List α)
    (rest : List (List α)) :
    pyZip (b :: rest) =
      (List.range (minLen (b :: rest))).map fun i =>
        (b :: rest).map fun l => l.getD i 0 :=
  rfl

/-- Indexing a mapped range below its length. -/
theorem getD_map_range {β : Type} (f : ℕ → β) (d : β) (m i : ℕ) (h : i < m) :
    ((List.range m).map f).getD i d = f i := by
  rw [List.getD_eq_getD_get?, List.get?_map, List.get?_range h]
  rfl

/-- Folding `min ∘ length` over copies of one row keeps that row's length. -/
theorem foldl_min_length_replicate {α : Type} (b : List α) :
    ∀ m : ℕ,
      (List.replicate m b).foldl (fun a l => min a l.length) b.length = b.length := by
  intro m
  induction m with
  | zero => rfl
  | succ k ih =>
    simp only [List.replicate_succ, List.foldl_cons, min_self]
    exact ih

/-- The zip length over identical rows is the common row length. -/
theorem minLen_cons_replicate {α : Type} (m : ℕ) (b : List α) :
    minLen (b :: List.replicate m b) = b.length :=
  foldl_min_length_replicate b m

/-- Reading every index of a list back off gives the list. -/
theorem range_map_getD {α : Type} [LinearOrderedField α] (b : List α) :
    (List.range b.length).map (fun i => b.getD i 0) = b := by
  induction b with
  | nil => rfl
  | cons a t ih =>
    rw [List.length_cons, List.range_succ_eq_map, List.map_cons, List.map_map]
    simp only [Function.comp_def, List.getD_cons_zero, List.getD_cons_succ]
    rw [ih]

/-- Inverting `SumFilter.__init__` with the default arguments: success
means the source list was nonempty and the stored amplitude is
`1 / len(sources)`. -/
theorem mkSumFilter_ok {α : Type} [LinearOrderedField α]
    (srcs : List (ℕ → List α)) (F : SumFilterS α)
    (h : mkSumFilter srcs 1 true = .ok F) :
    srcs ≠ [] ∧ F.sources = srcs ∧ F.amplitude = 1 / (srcs.length : α) := by
  cases srcs with
  | nil => simp [mkSumFilter, normalise_amplitude, Except.map] at h
  | cons b rest =>
    simp only [mkSumFilter, normalise_amplitude, List.length_cons,
      Nat.succ_ne_zero, if_false, if_true, Except.map, Nat.cast_succ,
      Except.ok.injEq] at h
    exact ⟨List.cons_ne_nil b rest, by rw [← h], by rw [← h, List.length_cons,
      Nat.cast_succ]⟩

/-- C7: a `SumFilter` built with `normalise=true` and the default amplitude
`1.0` over sources `srcs` yields, per pull, a block of length the minimum
source-block length whose sample `i` is `(1/N)` times the elementwise sum
of the sources' samples `i`; in particular over `N` identical sources the
output block equals the single source's block (peak amplitude is the
single-source peak, not `N` times it). -/
theorem sumfilter_normalised_mean {α : Type} [LinearOrderedField α]
    (srcs : List (ℕ → List α)) (F : SumFilterS α)
    (h : mkSumFilter srcs 1 true = .ok F) :
    (∀ n : ℕ, (F.blocks n).length = minLen (srcs.map fun s => s n)) ∧
    (∀ n i : ℕ, i < minLen (srcs.map fun s => s n) →
      (F.blocks n).getD i 0 =
        1 / (srcs.length : α) * ((srcs.map fun s => (s n).getD i 0).sum)) ∧
    (∀ (N : ℕ) (s : ℕ → List α), srcs = List.replicate N s →
      ∀ n : ℕ, F.blocks n = s n) := by
  obtain ⟨hne, hsrc, hamp⟩ := mkSumFilter_ok srcs F h
  have hblocks : ∀ n : ℕ, F.blocks n =
      (pyZip (srcs.map fun s => s n)).map fun col => F.amplitude * col.sum := by
    intro n
    show (pyZip (F.sources.map fun s => s n)).map _ = _
    rw [hsrc]
  refine ⟨?_, ?_, ?_⟩
  · intro n
    rw [hblocks n]
    cases srcs with
    | nil => exact absurd rfl hne
    | cons b rest =>
      rw [List.map_cons, pyZip_cons, List.map_map, List.length_map,
        List.length_range]
  · intro n i hi
    rw [hblocks n]
    cases srcs with
    | nil => exact absurd rfl hne
    | cons b rest =>
      rw [List.map_cons] at hi ⊢
      rw [pyZip_cons, List.map_map]
      rw [getD_map_range _ 0 _ i hi]
      simp only [Function.comp_def, hamp, List.map_cons, List.map_map]
  · intro N s hrep n
    subst hrep
    cases N with
    | zero => exact absurd rfl hne
    | succ m =>
      have hc : ((m + 1 : ℕ) : α) ≠ 0 := Nat.cast_ne_zero.mpr (Nat.succ_ne_zero m)
      rw [hblocks n, List.map_replicate, List.replicate_succ, pyZip_cons,
        minLen_cons_replicate, List.map_map]
      have hcol : ∀ i : ℕ,
          ((s n :: List.replicate m (s n)).map fun l => l.getD i 0) =
            List.replicate (m + 1) ((s n).getD i 0) := by
        intro i
        rw [← List.replicate_succ, List.map_replicate]
      simp only [Function.comp_def, hcol, List.sum_replicate, nsmul_eq_mul,
        hamp, List.length_replicate]
      have hval : ∀ i : ℕ,
          1 / ((m + 1 : ℕ) : α) * (((m + 1 : ℕ) : α) * (s n).getD i 0) =
            (s n).getD i 0 := by
        intro i
        rw [← mul_assoc, one_div_mul_cancel hc, one_mul]
      simp only [hval]
      exact range_map_getD (s n)

/-- Witness for `sumfilter_normalised_mean` over two identical sources:
the normalised mix of two copies of `wSrc` equals one copy. -/
theorem sumfilter_normalised_mean_witness :
    SumFilterS.blocks
        { sources := [wSrc, wSrc],
          amplitude := 1 / (([wSrc, wSrc].length : ℕ) : ℚ) } 0 = wSrc 0 :=
  (sumfilter_normalised_mean [wSrc, wSrc]
      { sources := [wSrc, wSrc],
        amplitude := 1 / (([wSrc, wSrc].length : ℕ) : ℚ) } rfl).2.2
    2 wSrc rfl 0

/-- The first recorded amplitude of a nonempty exponential phase block is
the entry amplitude. -/
theorem ampBlock_fst_head {α : Type} [LinearOrderedField α] (mult base : α)
    (n : ℕ) (h : n ≠ 0) (amp : α) :
    ((ampBlock mult base n amp).1).head? = some amp := by
  cases n with
  | zero => exact absurd rfl h
  | succ m => simp [ampBlock]

/-- The iteration `amp ↦ base + amp * mult` with `base = fp * (1 - mult)`
and `0 ≤ mult ≤ 1`, started at or below the fixed point `fp`, produces a
non-decreasing amplitude list bounded by the final amplitude, which itself
stays at or below `fp`. -/
theorem ampBlock_up {α : Type} [LinearOrderedField α] (mult fp : α)
    (hm0 : 0 ≤ mult) (hm1 : mult ≤ 1) :
    ∀ (n : ℕ) (amp : α), amp ≤ fp →
      amp ≤ (ampBlock mult (fp * (1 - mult)) n amp).2 ∧
      (ampBlock mult (fp * (1 - mult)) n amp).2 ≤ fp ∧
      (ampBlock mult (fp * (1 - mult)) n amp).1.Chain' (· ≤ ·) ∧
      ∀ x ∈ (ampBlock mult (fp * (1 - mult)) n amp).1,
        amp ≤ x ∧ x ≤ (ampBlock mult (fp * (1 - mult)) n amp).2 := by
  intro n
  induction n with
  | zero =>
    intro amp h
    simp only [ampBlock]
    exact ⟨le_refl amp, h, List.chain'_nil, by simp⟩
  | succ m ih =>
    intro amp h
    have hs1 : amp ≤ fp * (1 - mult) + amp * mult := by nlinarith
    have hs2 : fp * (1 - mult) + amp * mult ≤ fp := by nlinarith
    obtain ⟨i1, i2, i3, i4⟩ := ih (fp * (1 - mult) + amp * mult) hs2
    simp only [ampBlock]
    refine ⟨le_trans hs1 i1, i2, ?_, ?_⟩
    · refine List.chain'_cons'.mpr ⟨fun y hy => ?_, i3⟩
      exact le_trans hs1 (i4 y (List.mem_of_mem_head? hy)).1
    · intro x hx
      rcases List.mem_cons.mp hx with rfl | hx'
      · exact ⟨le_refl x, le_trans hs1 i1⟩
      · exact ⟨le_trans hs1 (i4 x hx').1, (i4 x hx').2⟩

/-- The iteration `amp ↦ base + amp * mult` with `base = fp * (1 - mult)`
and `0 ≤ mult ≤ 1`, started at or above the fixed point `fp`, produces a
non-increasing amplitude list bounded below by the final amplitude, which
itself stays at or above `fp`. -/
theorem ampBlock_down {α : Type} [LinearOrderedField α] (mult fp : α)
    (hm0 : 0 ≤ mult) (hm1 : mult ≤ 1) :
    ∀ (n : ℕ) (amp : α), fp ≤ amp →
      (ampBlock mult (fp * (1 - mult)) n amp).2 ≤ amp ∧
      fp ≤ (ampBlock mult (fp * (1 - mult)) n amp).2 ∧
      (ampBlock mult (fp * (1 - mult)) n amp).1.Chain' (fun a b => b ≤ a) ∧
      ∀ x ∈ (ampBlock mult (fp * (1 - mult)) n amp).1,
        (ampBlock mult (fp * (1 - mult)) n amp).2 ≤ x ∧ x ≤ amp := by
  intro n
  induction n with
  | zero =>
    intro amp h
    simp only [ampBlock]
    exact ⟨le_refl amp, h, List.chain'_nil, by simp⟩
  | succ m ih =>
    intro amp h
    have hs1 : fp * (1 - mult) + amp * mult ≤ amp := by nlinarith
    have hs2 : fp ≤ fp * (1 - mult) + amp * mult := by nlinarith
    obtain ⟨i1, i2, i3, i4⟩ := ih (fp * (1 - mult) + amp * mult) hs2
    simp only [ampBlock]
    refine ⟨le_trans i1 hs1, i2, ?_, ?_⟩
    · refine List.chain'_cons'.mpr ⟨fun y hy => ?_, i3⟩
      exact le_trans (i4 y (List.mem_of_mem_head? hy)).2 hs1
    · intro x hx
      rcases List.mem_cons.mp hx with rfl | hx'
      · exact ⟨le_trans i1 hs1, le_refl x⟩
      · exact ⟨(i4 x hx').1, le_trans (i4 x hx').2 hs1⟩

/-- The code's phase multiplier
`exp((1/(time*framerate)) * log(target/base))` lies in `(0, 1]` whenever
the duration and framerate are positive and `0 < target ≤ base`. -/
theorem exp_rate_le_one (t fr target base : ℝ) (ht : 0 < t) (hfr : 0 < fr)
    (htar : 0 < target) (hbase : target ≤ base) :
    Real.exp (1 / (t * fr) * Real.log (target / base)) ≤ 1 := by
  have hb : 0 < base := lt_of_lt_of_le htar hbase
  have hlog : Real.log (target / base) ≤ 0 :=
    Real.log_nonpos (le_of_lt (div_pos htar hb)) ((div_le_one hb).mpr hbase)
  have hcoef : 0 ≤ 1 / (t * fr) := by positivity
  have hexp : 1 / (t * fr) * Real.log (target / base) ≤ 0 :=
    mul_nonpos_iff.mpr (Or.inl ⟨hcoef, hlog⟩)
  calc Real.exp (1 / (t * fr) * Real.log (target / base)) ≤ Real.exp 0 :=
        Real.exp_le_exp.mpr hexp
    _ = 1 := Real.exp_zero

/-- C4 (counterexample): an envelope with `attack = 0`, `decay = 0`,
`max_amp = 2` and sustain fraction `1/2`: the first yielded block's
amplitude factors are all `sustain_level = 1` (both zero-length phases
are skipped and the SUSTAIN body runs), so they are *not* all equal to
`max_amp = 2` — the claim's "regardless of the other envelope parameters"
fails when the decay is zero too. -/
theorem envelope_attack_zero_counterexample :
    (envStep envC4counter (1, 0)).1 = List.replicate 4 (1 : ℚ) ∧
    ¬ (∀ x ∈ (envStep envC4counter (1, 0)).1, x = envC4counter.max_amp) := by
  decide

/-- C4 (amended): for an envelope with `attack = 0`, the ATTACK phase is
skipped with no samples emitted at its starting amplitude: when
`decay ≠ 0` the first block `blocks()` yields is the DECAY phase's block
started at `max_amp`, so its first amplitude factor is `max_amp` (not the
theoretical exponential start); when `decay = 0` the DECAY phase is
skipped as well and the first block is the SUSTAIN block, every amplitude
factor equal to `sustain_level`. -/
theorem envelope_attack_zero_skip {α : Type} [LinearOrderedField α]
    [DecidableEq α] (c : EnvConfig α) (ha : c.attack = 0)
    (hbs : c.blocksize ≠ 0) :
    (c.decay ≠ 0 → ((envStep c (1, 0)).1).head? = some c.max_amp ∧
      (envStep c (1, 0)).1 =
        (ampBlock c.decay_multiplier c.decay_base c.blocksize c.max_amp).1) ∧
    (c.decay = 0 →
      (envStep c (1, 0)).1 = List.replicate c.blocksize c.sustain_level) := by
  have h1 : envStep c (1, (0 : α)) = stepDecay c c.max_amp := by
    show stepAttack c (0 : α) = _
    unfold stepAttack
    rw [if_pos ha]
  constructor
  · intro hd
    rw [h1]
    unfold stepDecay
    rw [if_neg hd]
    exact ⟨ampBlock_fst_head _ _ _ hbs _, rfl⟩
  · intro hd
    rw [h1]
    unfold stepDecay
    rw [if_pos hd]
    rfl

/-- Witness for `envelope_attack_zero_skip`: with `attack = 0` and a
nonzero decay, the first yielded block's first amplitude factor is
`max_amp`. -/
theorem envelope_attack_zero_skip_witness :
    ((envStep envC4wit (1, 0)).1).head? = some envC4wit.max_amp :=
  ((envelope_attack_zero_skip envC4wit rfl (by decide)).1 (by decide)).1

/-- C5 (amended): for an envelope with positive phase durations,
`max_amp ≥ 0`, `0 ≤ sustain_level ≤ max_amp` (a sustain fraction in
`[0,1]`), positive targets and the three multipliers given by the code's
`exp`/`log` formulas, every block `blocks()` yields has phase-appropriate
monotone amplitude factors: non-decreasing in ATTACK (state 1),
non-increasing in DECAY (state 2), constantly `sustain_level` in SUSTAIN
(state 3); in RELEASE (state 4) the blocks computed while the carried
amplitude is positive are non-increasing, and once the carried amplitude
has fallen to `≤ 0` the emitted blocks are all-zero.  The bounds
`amp ≤ x ≤ newAmp` (resp. `newAmp ≤ x ≤ amp`) tie consecutive blocks of
the same phase together, so the concatenated per-sample sequence is
monotone across block boundaries within ATTACK, within DECAY, and within
the positive-amplitude part of RELEASE.  The original claim's unrestricted
RELEASE non-increase is false: the release recurrence's fixed point is
`-dr_target < 0`, so the last positive-amplitude block can record negative
factors, after which the all-zero blocks step back *up* to `0` (see the
counterexample).  The invariant `EnvInv` holds at the generator's start
`(1, 0)`, is preserved by every step, and is preserved by the external
note-off trigger (`state := 4`), so the hypothesis covers every reachable
`(state, amplitude)` pair. -/
theorem envelope_phase_monotonicity (c : EnvConfig ℝ)
    (hA : 0 < c.attack) (hD : 0 < c.decay) (hR : 0 < c.release)
    (hfr : 0 < c.framerate) (hmax : 0 ≤ c.max_amp)
    (hsus0 : 0 ≤ c.sustain_level) (hsusm : c.sustain_level ≤ c.max_amp)
    (hat : 0 < c.a_target) (hdrt : 0 < c.dr_target)
    (ham : c.attack_multiplier =
      Real.exp (1 / (c.attack * c.framerate) *
        Real.log (c.a_target / (c.max_amp + c.a_target))))
    (hdm : c.decay_multiplier =
      Real.exp (1 / (c.decay * c.framerate) *
        Real.log (c.dr_target / (c.max_amp - c.sustain_level + c.dr_target))))
    (hrm : c.release_multiplier =
      Real.exp (1 / (c.release * c.framerate) *
        Real.log (c.dr_target / (c.sustain_level + c.dr_target))))
    (st : ℕ) (amp : ℝ) (hinv : EnvInv c (st, amp)) :
    (st = 1 → (envStep c (st, amp)).1.Chain' (· ≤ ·) ∧
      ∀ x ∈ (envStep c (st, amp)).1, amp ≤ x ∧ x ≤ (envStep c (st, amp)).2.2) ∧
    (st = 2 → (envStep c (st, amp)).1.Chain' (fun a b => b ≤ a) ∧
      ∀ x ∈ (envStep c (st, amp)).1, (envStep c (st, amp)).2.2 ≤ x ∧ x ≤ amp) ∧
    (st = 3 → ∀ x ∈ (envStep c (st, amp)).1, x = c.sustain_level) ∧
    (st = 4 → (envStep c (st, amp)).1.Chain' (fun a b => b ≤ a) ∧
      (0 < amp → ∀ x ∈ (envStep c (st, amp)).1,
        (envStep c (st, amp)).2.2 ≤ x ∧ x ≤ amp) ∧
      (amp ≤ 0 → ∀ x ∈ (envStep c (st, amp)).1, x = 0)) ∧
    EnvInv c (envStep c (st, amp)).2 ∧ EnvInv c (4, amp) := by
  have ham0 : 0 ≤ c.attack_multiplier := by
    rw [ham]; exact (Real.exp_pos _).le
  have ham1 : c.attack_multiplier ≤ 1 := by
    rw [ham]; exact exp_rate_le_one _ _ _ _ hA hfr hat (by linarith)
  have hdm0 : 0 ≤ c.decay_multiplier := by
    rw [hdm]; exact (Real.exp_pos _).le
  have hdm1 : c.decay_multiplier ≤ 1 := by
    rw [hdm]; exact exp_rate_le_one _ _ _ _ hD hfr hdrt (by linarith)
  have hrm0 : 0 ≤ c.release_multiplier := by
    rw [hrm]; exact (Real.exp_pos _).le
  have hrm1 : c.release_multiplier ≤ 1 := by
    rw [hrm]; exact exp_rate_le_one _ _ _ _ hR hfr hdrt (by linarith)
  have hab : c.attack_base =
      (c.max_amp + c.a_target) * (1 - c.attack_multiplier) := rfl
  have hdb : c.decay_base =
      (c.sustain_level - c.dr_target) * (1 - c.decay_multiplier) := rfl
  have hrb : c.release_base =
      -c.dr_target * (1 - c.release_multiplier) := rfl
  by_cases e1 : st = 1
  · subst e1
    simp only [EnvInv, if_true] at hinv
    obtain ⟨h0, hub⟩ := hinv
    have hA' : c.attack ≠ 0 := ne_of_gt hA
    have key := ampBlock_up c.attack_multiplier (c.max_amp + c.a_target)
      ham0 ham1 c.blocksize amp hub
    rw [← hab] at key
    have hred : envStep c (1, amp) =
        ((ampBlock c.attack_multiplier c.attack_base c.blocksize amp).1,
         (if c.max_amp ≤
              (ampBlock c.attack_multiplier c.attack_base c.blocksize amp).2
           then 2 else 1,
          (ampBlock c.attack_multiplier c.attack_base c.blocksize amp).2)) := by
      show stepAttack c amp = _
      unfold stepAttack
      rw [if_neg hA']
    refine ⟨fun _ => ?_, fun h => absurd h (by norm_num),
      fun h => absurd h (by norm_num), fun h => absurd h (by norm_num),
      ?_, ?_⟩
    · rw [hred]
      exact ⟨key.2.2.1, key.2.2.2⟩
    · rw [hred]
      show EnvInv c
        (if c.max_amp ≤
            (ampBlock c.attack_multiplier c.attack_base c.blocksize amp).2
          then 2 else 1,
         (ampBlock c.attack_multiplier c.attack_base c.blocksize amp).2)
      split_ifs with htr
      · show EnvInv c (2, _)
        simp only [EnvInv]
        norm_num
        exact ⟨by linarith [key.2.1], key.2.1⟩
      · show EnvInv c (1, _)
        simp only [EnvInv]
        norm_num
        exact ⟨le_trans h0 key.1, key.2.1⟩
    · simp only [EnvInv]
      norm_num
      linarith
  by_cases e2 : st = 2
  · subst e2
    simp only [EnvInv] at hinv
    norm_num at hinv
    obtain ⟨hlb, hub⟩ := hinv
    have hD' : c.decay ≠ 0 := ne_of_gt hD
    have key := ampBlock_down c.decay_multiplier
      (c.sustain_level - c.dr_target) hdm0 hdm1 c.blocksize amp (by linarith)
    rw [← hdb] at key
    have hred : envStep c (2, amp) =
        ((ampBlock c.decay_multiplier c.decay_base c.blocksize amp).1,
         (if (ampBlock c.decay_multiplier c.decay_base c.blocksize amp).2 ≤
              c.sustain_level
           then 3 else 2,
          (ampBlock c.decay_multiplier c.decay_base c.blocksize amp).2)) := by
      show stepDecay c amp = _
      unfold stepDecay
      rw [if_neg hD']
    refine ⟨fun h => absurd h (by norm_num), fun _ => ?_,
      fun h => absurd h (by norm_num), fun h => absurd h (by norm_num),
      ?_, ?_⟩
    · rw [hred]
      exact ⟨key.2.2.1, key.2.2.2⟩
    · rw [hred]
      show EnvInv c
        (if (ampBlock c.decay_multiplier c.decay_base c.blocksize amp).2 ≤
            c.sustain_level
          then 3 else 2,
         (ampBlock c.decay_multiplier c.decay_base c.blocksize amp).2)
      split_ifs with htr
      · show EnvInv c (3, _)
        simp only [EnvInv]
        norm_num
        constructor <;> linarith [key.1, key.2.1]
      · show EnvInv c (2, _)
        simp only [EnvInv]
        norm_num
        constructor <;> linarith [key.1, key.2.1]
    · simp only [EnvInv]
      norm_num
      linarith
  by_cases e3 : st = 3
  · subst e3
    simp only [EnvInv] at hinv
    norm_num at hinv
    obtain ⟨hlb, hub⟩ := hinv
    have hred : envStep c (3, amp) =
        (List.replicate c.blocksize c.sustain_level, (3, c.sustain_level)) :=
      rfl
    refine ⟨fun h => absurd h (by norm_num), fun h => absurd h (by norm_num),
      fun _ => ?_, fun h => absurd h (by norm_num), ?_, ?_⟩
    · rw [hred]
      exact fun x hx => List.eq_of_mem_replicate hx
    · rw [hred]
      show EnvInv c (3, c.sustain_level)
      simp only [EnvInv]
      norm_num
      constructor <;> linarith
    · simp only [EnvInv]
      norm_num
      linarith
  by_cases e4 : st = 4
  · subst e4
    simp only [EnvInv] at hinv
    norm_num at hinv
    have hR' : c.release ≠ 0 := ne_of_gt hR
    by_cases hpos : 0 < amp
    · have key := ampBlock_down c.release_multiplier (-c.dr_target)
        hrm0 hrm1 c.blocksize amp (by linarith)
      rw [← hrb] at key
      have hred : envStep c (4, amp) =
          ((ampBlock c.release_multiplier c.release_base c.blocksize amp).1,
           (4,
            (ampBlock c.release_multiplier c.release_base c.blocksize amp).2)) := by
        show stepRelease c amp = _
        unfold stepRelease
        rw [if_neg hR', if_pos hpos]
      refine ⟨fun h => absurd h (by norm_num), fun h => absurd h (by norm_num),
        fun h => absurd h (by norm_num), fun _ => ?_, ?_, ?_⟩
      · rw [hred]
        exact ⟨key.2.2.1, fun _ => key.2.2.2,
          fun hle => absurd hpos (not_lt.mpr hle)⟩
      · rw [hred]
        show EnvInv c (4, _)
        simp only [EnvInv]
        norm_num
        linarith [key.2.1]
      · simp only [EnvInv]
        norm_num
        linarith
    · have hred : envStep c (4, amp) =
          (List.replicate c.blocksize 0, (4, amp)) := by
        show stepRelease c amp = _
        unfold stepRelease
        rw [if_neg hR', if_neg hpos]
      refine ⟨fun h => absurd h (by norm_num), fun h => absurd h (by norm_num),
        fun h => absurd h (by norm_num), fun _ => ?_, ?_, ?_⟩
      · rw [hred]
        exact ⟨List.chain'_replicate_of_rel _ (le_refl (0 : ℝ)),
          fun hp => absurd hp hpos,
          fun _ => fun x hx => List.eq_of_mem_replicate hx⟩
      · rw [hred]
        show EnvInv c (4, amp)
        simp only [EnvInv]
        norm_num
        linarith
      · simp only [EnvInv]
        norm_num
        linarith
  · exfalso
    simp only [EnvInv, e1, e2, e3, e4] at hinv
    norm_num [e1, e2, e3, e4] at hinv

/-- Witness for `envelope_phase_monotonicity`: at a unit-parameter
configuration whose multipliers are the code's `exp`/`log` formulas, the
first ATTACK block's amplitude factors are non-decreasing. -/
theorem envelope_phase_monotonicity_witness :
    (envStep
        { blocksize := 2, framerate := 1, max_amp := 1, sustain_level := 1,
          attack := 1, decay := 1, release := 1, a_target := 1,
          dr_target := 1,
          attack_multiplier :=
            Real.exp (1 / ((1 : ℝ) * 1) * Real.log ((1 : ℝ) / (1 + 1))),
          decay_multiplier :=
            Real.exp (1 / ((1 : ℝ) * 1) * Real.log ((1 : ℝ) / (1 - 1 + 1))),
          release_multiplier :=
            Real.exp (1 / ((1 : ℝ) * 1) * Real.log ((1 : ℝ) / (1 + 1))) }
        (1, 0)).1.Chain' (· ≤ ·) :=
  ((envelope_phase_monotonicity _ one_pos one_pos one_pos one_pos zero_le_one
      zero_le_one le_rfl one_pos one_pos rfl rfl rfl 1 0
      (by norm_num [EnvInv])).1 rfl).1

/-- C5 (counterexample): the per-sample amplitude factors emitted while the
state is RELEASE are *not* monotonically non-increasing, within the
claim's own hypotheses.  The configuration has unit durations, framerate
1, `max_amp = 1`, sustain fraction 1 (`sustain_level = 1`), unit targets
and the code's `exp`/`log` multipliers — with
`release * framerate = 1` the release multiplier is exactly
`exp(log(1/(1+1))) = 1/2`, so `release_base = -1/2` and the release
recurrence has fixed point `-dr_target = -1`.  From the reachable release
state `(4, 1)` (note-off during SUSTAIN at level 1), the first RELEASE
block records the factors `[1, 0, -1/2]` — overshooting below zero
mid-block, since the `amplitude > 0` test happens only at block start —
leaving the carried amplitude `-3/4 ≤ 0`, so the next pull (still state 4)
emits the all-zero block `[0, 0, 0]`.  The concatenated RELEASE factor
sequence `[1, 0, -1/2, 0, 0, 0]` rises from `-1/2` back to `0`, refuting
the claimed non-increase during RELEASE. -/
theorem envelope_release_nonmonotone_counterexample :
    envStep
        { blocksize := 3, framerate := 1, max_amp := 1, sustain_level := 1,
          attack := 1, decay := 1, release := 1, a_target := 1,
          dr_target := 1,
          attack_multiplier :=
            Real.exp (1 / ((1 : ℝ) * 1) * Real.log ((1 : ℝ) / (1 + 1))),
          decay_multiplier :=
            Real.exp (1 / ((1 : ℝ) * 1) * Real.log ((1 : ℝ) / (1 - 1 + 1))),
          release_multiplier :=
            Real.exp (1 / ((1 : ℝ) * 1) * Real.log ((1 : ℝ) / (1 + 1))) }
        (4, 1) = ([1, 0, -(1/2 : ℝ)], (4, -(3/4 : ℝ))) ∧
    (envStep
        { blocksize := 3, framerate := 1, max_amp := 1, sustain_level := 1,
          attack := 1, decay := 1, release := 1, a_target := 1,
          dr_target := 1,
          attack_multiplier :=
            Real.exp (1 / ((1 : ℝ) * 1) * Real.log ((1 : ℝ) / (1 + 1))),
          decay_multiplier :=
            Real.exp (1 / ((1 : ℝ) * 1) * Real.log ((1 : ℝ) / (1 - 1 + 1))),
          release_multiplier :=
            Real.exp (1 / ((1 : ℝ) * 1) * Real.log ((1 : ℝ) / (1 + 1))) }
        (4, -(3/4 : ℝ))).1 = [0, 0, 0] ∧
    ¬ ([1, 0, -(1/2 : ℝ), 0, 0, 0] : List ℝ).Chain' (fun a b => b ≤ a) := by
  have hrm : Real.exp (1 / ((1 : ℝ) * 1) * Real.log ((1 : ℝ) / (1 + 1))) =
      (1/2 : ℝ) := by
    have h1 : (1 : ℝ) / ((1 : ℝ) * 1) * Real.log ((1 : ℝ) / (1 + 1)) =
        Real.log ((1 : ℝ) / (1 + 1)) := by norm_num
    rw [h1, Real.exp_log (by norm_num)]
    norm_num
  have e3 : ∀ m b a : ℝ, ampBlock m b 3 a =
      ([a, b + a * m, b + (b + a * m) * m],
       b + (b + (b + a * m) * m) * m) := fun m b a => rfl
  refine ⟨?_, ?_, ?_⟩
  · show stepRelease _ 1 = _
    unfold stepRelease
    split_ifs with hz hp
    · exact absurd hz (by norm_num)
    · show ((ampBlock (Real.exp (1 / ((1 : ℝ) * 1) *
            Real.log ((1 : ℝ) / (1 + 1))))
          (-(1 : ℝ) * (1 - Real.exp (1 / ((1 : ℝ) * 1) *
            Real.log ((1 : ℝ) / (1 + 1))))) 3 1).1,
        (4, (ampBlock (Real.exp (1 / ((1 : ℝ) * 1) *
            Real.log ((1 : ℝ) / (1 + 1))))
          (-(1 : ℝ) * (1 - Real.exp (1 / ((1 : ℝ) * 1) *
            Real.log ((1 : ℝ) / (1 + 1))))) 3 1).2)) = _
      rw [hrm, e3]
      norm_num
    · exact absurd one_pos hp
  · show (stepRelease _ (-(3/4 : ℝ))).1 = _
    unfold stepRelease
    split_ifs with hz hp
    · exact absurd hz (by norm_num)
    · exact absurd hp (by norm_num)
    · rfl
  · norm_num [List.chain'_cons, List.chain'_singleton]

end PySynth
